import Mathlib

/-!
Verification of `pylascontrol` (pylascontrol/pylascontrol.py): a shallow
embedding of the budget-spreadsheet transformer `load_budget_excel` and of
the aggregator/renderer `plot_chart_by_type`, together with theorems about
the properties the specification states for them.

The pandas `DataFrame` produced by `pd.read_excel` is modelled as a `Grid`:
a declared number of month-candidate columns (the columns after column 0)
and a list of rows, each holding the column-0 cell (the label cell) and the
list of cells of the remaining columns.  A cell is missing (`NaN`), a
number, or a text value.  Python floats are modelled as rationals.
-/

set_option autoImplicit false

namespace PylasControl

/-- A spreadsheet cell as pandas delivers it: `NaN`/missing, a number, or text. -/
inductive Cell where
  | na
  | num (v : ℚ)
  | str (s : String)
  deriving DecidableEq, Repr

/-- One row of the loaded DataFrame: the column-0 cell (`Unnamed: 0`) and the
cells of the later columns, in column order. -/
structure DFRow where
  label : Cell
  cells : List Cell
  deriving DecidableEq, Repr

/-- The loaded DataFrame: `cols` is the number of columns after column 0,
`rows` are all the rows in order (row 0 is the month-code header row). -/
structure Grid where
  cols : Nat
  rows : List DFRow
  deriving DecidableEq, Repr

/-- `MONTHS_MAP` from the source: month code → month number, 1..12. -/
def MONTHS_MAP : List (String × Nat) :=
  [("JAN", 1), ("FEV", 2), ("MAR", 3), ("ABR", 4), ("MAIO", 5),
   ("JUN", 6), ("JUL", 7), ("AGO", 8), ("SET", 9), ("OUT", 10),
   ("NOV", 11), ("DEZ", 12)]

/-- `LABELS_TO_IGNORE` from the source: labels that are not treated as
spending/income categories. -/
def LABELS_TO_IGNORE : List String :=
  ["RECEITA", "DESPESAS", "DOMÉSTICAS", "Cotidiano", "TRANSPORTE",
   "ENTRETENIMENTO", "SAÚDE", "FÉRIAS", "LAZER", "MENSALIDADES",
   "PESSOAIS", "OBRIGAÇÕES FINANCEIRAS", "APORTES",
   "Total", "TOTAIS", "Despesas totais", "Diferença de caixa",
   "nan"]

/-- The group-header label set of the source (the inline set literal at the
`grupo_atual` update in `load_budget_excel`). -/
def GROUP_HEADERS : List String :=
  ["RECEITA", "DOMÉSTICAS", "Cotidiano", "TRANSPORTE",
   "ENTRETENIMENTO", "SAÚDE", "FÉRIAS", "LAZER", "MENSALIDADES",
   "PESSOAIS", "OBRIGAÇÕES FINANCEIRAS", "APORTES"]

/-- Python `str()` on a float value such as `5000.0` (integral floats render
with a trailing `.0`); an approximation sufficient for label cells, which the
claims only exercise on text and `NaN` cells. -/
def floatRepr (v : ℚ) : String :=
  if v.den = 1 then toString v.num ++ ".0" else toString v

/-- Python `str.strip()`: drop leading and trailing whitespace.  Implemented
structurally over the character list so that it evaluates by kernel
reduction. -/
def pyStrip (s : String) : String :=
  String.mk
    (((s.data.dropWhile Char.isWhitespace).reverse.dropWhile
        Char.isWhitespace).reverse)

/-- `str(row.get("Unnamed: 0", "")).strip()` from the source: the stripped
string form of the column-0 cell (`str(nan)` is `"nan"`). -/
def labelString : Cell → String
  | Cell.na => "nan"
  | Cell.str s => pyStrip s
  | Cell.num v => pyStrip (floatRepr v)

/-- `pd.isna` on a cell. -/
def isna : Cell → Bool
  | Cell.na => true
  | _ => false

/-- Python `float(str)` on the common numeric-literal forms: optional
whitespace and sign, digits, optional fractional digits.  Exotic inputs
(exponents, `inf`, `nan`) are not modelled; on text that is not such a
literal the builtin raises, modelled as `none`. -/
def parsePyFloat (s : String) : Option ℚ :=
  let t := s.trim
  let (neg, u) :=
    if t.startsWith "-" then (true, t.drop 1)
    else if t.startsWith "+" then (false, t.drop 1)
    else (false, t)
  let core : Option ℚ :=
    match u.splitOn "." with
    | [a] => a.toNat?.map (fun n => (n : ℚ))
    | [a, b] =>
      if a = "" && b = "" then none
      else
        let ia : Option Nat := if a = "" then some 0 else a.toNat?
        let fb : Option (Nat × Nat) :=
          if b = "" then some (0, 0) else b.toNat?.map (fun n => (n, b.length))
        match ia, fb with
        | some n, some (f, len) => some ((n : ℚ) + (f : ℚ) / ((10 : ℚ) ^ len))
        | _, _ => none
    | _ => none
  core.map (fun v => if neg then -v else v)

/-- Python `float(valor)` on a month cell.  The `NaN` case is unreachable in
`load_budget_excel` (`pd.isna` is checked first); a text cell parses as a
float literal or raises (`none`). -/
def pyFloat : Cell → Option ℚ
  | Cell.na => none
  | Cell.num v => some v
  | Cell.str s => parsePyFloat s

/-- `MONTHS_MAP.get(mes_sigla)`: a month header cell resolves to a month
number only when it is text and a key of the table. -/
def monthOf : Cell → Option Nat
  | Cell.str s => (MONTHS_MAP.find? (fun p => p.1 = s)).map (fun p => p.2)
  | _ => none

/-- The `tipo` conditional expression of the emitted record, a function of
`grupo_atual`: `"receita" if grupo_atual == "RECEITA" else "aporte" if
grupo_atual == "APORTES" else "despesa"`. -/
def tipoOf (grupo : Option String) : String :=
  if grupo = some "RECEITA" then "receita"
  else if grupo = some "APORTES" then "aporte"
  else "despesa"

/-- One output record of `load_budget_excel`: one line of the long-format
DataFrame.  `mes` is `none` when the month code did not resolve, `grupo` is
`none` when no group-header row preceded the emitting row. -/
structure Record where
  ano : Int
  mes : Option Nat
  tipo : String
  grupo : Option String
  categoria : String
  valor : ℚ
  deriving DecidableEq, Repr

/-- The inner `for col in mes_cols` loop of `load_budget_excel` for one
category row: `js` are the remaining month-column positions (0-based),
`siglas` the header-row cells of the month columns, `cells` the row's month
cells.  A missing or zero cell is skipped; an unparseable text cell raises. -/
def emitCells (year : Int) (grupo : Option String) (label : String)
    (siglas : List Cell) (cells : List Cell) : List Nat → Except String (List Record)
  | [] => Except.ok []
  | j :: rest =>
    let valor := cells.getD j Cell.na
    if isna valor then emitCells year grupo label siglas cells rest
    else
      match pyFloat valor with
      | none => Except.error "could not convert string to float"
      | some v =>
        if v = 0 then emitCells year grupo label siglas cells rest
        else
          match emitCells year grupo label siglas cells rest with
          | Except.error e => Except.error e
          | Except.ok out =>
            Except.ok (⟨year, monthOf (siglas.getD j Cell.na), tipoOf grupo,
                        grupo, label, v⟩ :: out)

/-- The body of the `for _, row in df.iterrows()` loop for one row: the
group-header check, the ignore check, then record emission.  Returns the
`grupo_atual` after the row and the records the row emitted. -/
def rowStep (year : Int) (k : Nat) (siglas : List Cell)
    (grupo : Option String) (row : DFRow) :
    Except String (Option String × List Record) :=
  let label := labelString row.label
  if label ∈ GROUP_HEADERS then Except.ok (some label, [])
  else if label ∈ LABELS_TO_IGNORE ∨ label = "" then Except.ok (grupo, [])
  else
    match emitCells year grupo label siglas row.cells (List.range k) with
    | Except.error e => Except.error e
    | Except.ok out => Except.ok (grupo, out)

/-- The row loop of `load_budget_excel`: threads `grupo_atual` and
concatenates the emitted records in row order. -/
def processRows (year : Int) (k : Nat) (siglas : List Cell)
    (grupo : Option String) : List DFRow → Except String (Option String × List Record)
  | [] => Except.ok (grupo, [])
  | row :: rest =>
    match rowStep year k siglas grupo row with
    | Except.error e => Except.error e
    | Except.ok (g2, out) =>
      match processRows year k siglas g2 rest with
      | Except.error e => Except.error e
      | Except.ok (gf, out2) => Except.ok (gf, out ++ out2)

/-- `load_budget_excel` after the `pd.read_excel` call: reads the month
codes from row 0, columns 1..12 (`df.columns[1:13]` silently yields fewer
columns when fewer exist), then runs the row loop over every row, row 0
included (as `df.iterrows()` does).  An empty DataFrame makes
`df.iloc[0]` raise. -/
def transform (g : Grid) (year : Int) : Except String (List Record) :=
  match g.rows with
  | [] => Except.error "single positional indexer is out-of-bounds"
  | hdr :: _ =>
    let k := min 12 g.cols
    match processRows year k hdr.cells none g.rows with
    | Except.error e => Except.error e
    | Except.ok (_, out) => Except.ok out

/-- The sheet name `load_budget_excel` requests from `pd.read_excel`. -/
def SHEET_NAME : String := "ORÇAMENTO PESSOAL"

/-- `pd.read_excel(path, sheet_name=...)` on a workbook modelled as a list
of named sheets: returns the named sheet or raises (as pandas does when the
worksheet is absent). -/
def readSheet (wb : List (String × Grid)) (name : String) : Except String Grid :=
  match wb.find? (fun p => p.1 = name) with
  | some p => Except.ok p.2
  | none => Except.error ("Worksheet named " ++ name ++ " not found")

/-- `load_budget_excel(path, year)` with the workbook behind `path` made
explicit: load the fixed sheet, then run the transform. -/
def load_budget_excel (wb : List (String × Grid)) (year : Int) :
    Except String (List Record) :=
  match readSheet wb SHEET_NAME with
  | Except.error e => Except.error e
  | Except.ok g => transform g year

/-- Whether a cell is not a text cell (missing or numeric). -/
def Cell.notStr : Cell → Bool
  | Cell.str _ => false
  | _ => true

/-- The group label the scan carries after a run of rows, starting from
`g0`: the label of the last group-header row, `g0` when none occurred. -/
def nearestHeaderFrom (g0 : Option String) (rows : List DFRow) : Option String :=
  rows.foldl
    (fun acc row =>
      if labelString row.label ∈ GROUP_HEADERS then some (labelString row.label)
      else acc)
    g0

/-- Specification-side reference for the row loop: each row is processed
with the group taken as the nearest preceding group-header label (recomputed
from the preceding rows `pre` alone, never from threaded state). -/
def specGo (year : Int) (k : Nat) (siglas : List Cell)
    (pre : List DFRow) : List DFRow → Except String (List Record)
  | [] => Except.ok []
  | row :: rest =>
    match rowStep year k siglas (nearestHeaderFrom none pre) row with
    | Except.error e => Except.error e
    | Except.ok (_, out) =>
      match specGo year k siglas (pre ++ [row]) rest with
      | Except.error e => Except.error e
      | Except.ok out2 => Except.ok (out ++ out2)

/-- Specification-side reference for the transform, following the spec's
words: every record's classification is determined solely by the nearest
preceding group-header row. -/
def specTransform (g : Grid) (year : Int) : Except String (List Record) :=
  match g.rows with
  | [] => Except.error "single positional indexer is out-of-bounds"
  | hdr :: _ => specGo year (min 12 g.cols) hdr.cells [] g.rows

/-- The 3-row grid of the round-trip property: a month-code header row with
a blank label, one group-header row, one category row. -/
def minimalGrid (hdrCells : List Cell) (gh : String) (ghCells : List Cell)
    (c : String) (cells : List Cell) : Grid :=
  ⟨12, [⟨Cell.str "", hdrCells⟩, ⟨Cell.str gh, ghCells⟩, ⟨Cell.str c, cells⟩]⟩

/-! ### Aggregator / renderer (`plot_chart_by_type`) -/

/-- `df[df["ano"] == year]`. -/
def filterYear (rs : List Record) (year : Int) : List Record :=
  rs.filter (fun r => r.ano = year)

/-- Add `v` to the running sum of key `k` in an association list of group
sums, appending the key when new. -/
def upsert (acc : List ((Nat × String) × ℚ)) (k : Nat × String) (v : ℚ) :
    List ((Nat × String) × ℚ) :=
  match acc with
  | [] => [(k, v)]
  | (k2, s) :: rest =>
    if k2 = k then (k2, s + v) :: rest else (k2, s) :: upsert rest k v

/-- One record's contribution to the grouped sums: rows whose `mes` is
missing are dropped, as pandas drops `NaN` group keys. -/
def groupStep (acc : List ((Nat × String) × ℚ)) (r : Record) :
    List ((Nat × String) × ℚ) :=
  match r.mes with
  | none => acc
  | some m => upsert acc (m, r.tipo) r.valor

/-- `groupby(["mes", "tipo"])["valor"].sum()`: the per-`(mes, tipo)` sums of
`valor`. -/
def groupPairs (rs : List Record) : List ((Nat × String) × ℚ) :=
  rs.foldl groupStep []

/-- Insert into a sorted duplicate-free list of months. -/
def insertSortedNat (m : Nat) : List Nat → List Nat
  | [] => [m]
  | n :: rest =>
    if m = n then n :: rest
    else if m < n then m :: n :: rest
    else n :: insertSortedNat m rest

/-- Insert into a sorted duplicate-free list of `tipo` strings. -/
def insertSortedStr (s : String) : List String → List String
  | [] => [s]
  | t :: rest =>
    if s = t then t :: rest
    else if s < t then s :: t :: rest
    else t :: insertSortedStr s rest

/-- The row index the `unstack` result carries: the distinct `mes` values of
the grouped keys, ascending. -/
def sortedMeses (ps : List ((Nat × String) × ℚ)) : List Nat :=
  ps.foldl (fun acc p => insertSortedNat p.1.1 acc) []

/-- The columns the `unstack` result carries: the distinct `tipo` values of
the grouped keys, ascending. -/
def sortedTipos (ps : List ((Nat × String) × ℚ)) : List String :=
  ps.foldl (fun acc p => insertSortedStr p.1.2 acc) []

/-- Look a `(mes, tipo)` key up among the grouped sums. -/
def pairLookup (ps : List ((Nat × String) × ℚ)) (k : Nat × String) : Option ℚ :=
  (ps.find? (fun p => p.1 = k)).map (fun p => p.2)

/-- The `base` DataFrame of `plot_chart_by_type`: a row index of months and
named columns of values aligned with the index. -/
structure Table where
  index : List Nat
  cols : List (String × List ℚ)
  deriving DecidableEq, Repr

/-- Whether the table has a column of that name (`name in base.columns`). -/
def Table.hasCol (t : Table) (name : String) : Bool :=
  (t.cols.find? (fun p => p.1 = name)).isSome

/-- The values of a named column. -/
def Table.getCol (t : Table) (name : String) : Option (List ℚ) :=
  (t.cols.find? (fun p => p.1 = name)).map (fun p => p.2)

/-- `base[name] = values`: overwrite the column when present, else append it. -/
def Table.setCol (t : Table) (name : String) (vs : List ℚ) : Table :=
  if t.hasCol name then
    ⟨t.index, t.cols.map (fun p => if p.1 = name then (p.1, vs) else p)⟩
  else ⟨t.index, t.cols ++ [(name, vs)]⟩

/-- `.unstack(fill_value=0)` on the grouped sums: index = sorted distinct
months, one column per distinct `tipo`, each cell the group's sum or the
fill value `0`. -/
def unstackTable (ps : List ((Nat × String) × ℚ)) : Table :=
  let mi := sortedMeses ps
  ⟨mi, (sortedTipos ps).map
        (fun t => (t, mi.map (fun m => (pairLookup ps (m, t)).getD 0)))⟩

/-- `if name not in base.columns: base[name] = 0.0` — the value the table
holds afterwards. -/
def ensurePlain (b : Table) (name : String) : Table :=
  if b.hasCol name then b else b.setCol name (b.index.map (fun _ => (0 : ℚ)))

/-- `base["saldo"] = base["receita"] - base["despesa"]` — the value the
table holds afterwards. -/
def withSaldo (b : Table) : Table :=
  b.setCol "saldo"
    (List.zipWith (fun a c => a - c)
      ((b.getCol "receita").getD []) ((b.getCol "despesa").getD []))

/-- The fully prepared `base` table of `plot_chart_by_type` for the given
records and year: filter, group, unstack, ensure the `receita` and `despesa`
columns, add `saldo`. -/
def baseOf (rs : List Record) (year : Int) : Table :=
  withSaldo (ensurePlain (ensurePlain
    (unstackTable (groupPairs (filterYear rs year))) "receita") "despesa")

/-- Specification-side reference for the aggregation: the total `valor` of
the records of the year with the given resolved month and `tipo`. -/
def sumValor (rs : List Record) (year : Int) (m : Nat) (t : String) : ℚ :=
  (((filterYear rs year).filter
      (fun r => decide (r.mes = some m ∧ r.tipo = t))).map (fun r => r.valor)).sum

/-- What a successful call displays: the chart kind with the series the
source hands to matplotlib (index and plotted columns). -/
inductive Chart where
  | line (index : List Nat) (receitas despesas : List ℚ)
  | bar (index : List Nat) (receitas despesas : List ℚ)
  | saldo (index : List Nat) (saldos : List ℚ)
  deriving DecidableEq, Repr

/-- Python `repr` of a string as the f-string `{type!r}` renders it: single
quotes, or double quotes when the text itself holds a single quote and no
double quote (escape sequences inside the text are not modelled). -/
def pyRepr (s : String) : String :=
  if s.data.contains (Char.ofNat 39) && !(s.data.contains (Char.ofNat 34)) then
    "\"" ++ s ++ "\""
  else "\x27" ++ s ++ "\x27"

/-- The `ValueError` message of `plot_chart_by_type` for an unrecognized
chart type. -/
def chartMsg (t : String) : String :=
  "chart_type inválido: " ++ pyRepr t ++ ". Use \x27line\x27, \x27bar\x27 ou \x27saldo\x27."

/-- A Python object reachable inside `plot_chart_by_type`: the caller's
long-format DataFrame or the derived `base` table. -/
inductive PyVal where
  | df (rs : List Record)
  | table (b : Table)
  deriving DecidableEq, Repr

/-- `plot_chart_by_type(df, year, type)` over an explicit object heap, `df`
passed by reference.  The filter/groupby/unstack chain allocates fresh
objects; the three column assignments mutate the fresh `base` object in
place (the two `ensure` assignments only when the column is missing); the
final branch reads `base` and either yields a chart or raises.  The heap is
returned alongside, surviving a raise as Python's objects do. -/
def plotHeap (h : List PyVal) (dfRef : Nat) (year : Int) (type_ : String) :
    List PyVal × Except String Chart :=
  match h[dfRef]? with
  | some (PyVal.df rs) =>
    let h1 := h ++ [PyVal.df (filterYear rs year)]
    let b0 := unstackTable (groupPairs (filterYear rs year))
    let rb := h1.length
    let h2 := h1 ++ [PyVal.table b0]
    let b1 := ensurePlain b0 "receita"
    let h3 := if b0.hasCol "receita" then h2 else h2.set rb (PyVal.table b1)
    let b2 := ensurePlain b1 "despesa"
    let h4 := if b1.hasCol "despesa" then h3 else h3.set rb (PyVal.table b2)
    let b3 := withSaldo b2
    let h5 := h4.set rb (PyVal.table b3)
    if type_ = "line" then
      (h5, Except.ok (Chart.line b3.index
        ((b3.getCol "receita").getD []) ((b3.getCol "despesa").getD [])))
    else if type_ = "bar" then
      (h5, Except.ok (Chart.bar b3.index
        ((b3.getCol "receita").getD []) ((b3.getCol "despesa").getD [])))
    else if type_ = "saldo" then
      (h5, Except.ok (Chart.saldo b3.index ((b3.getCol "saldo").getD [])))
    else (h5, Except.error (chartMsg type_))
  | _ => (h, Except.error "TypeError")

/-- `plot_chart_by_type` on a caller-supplied record list: run the heap
semantics on a one-object heap holding the DataFrame. -/
def plot_chart_by_type (rs : List Record) (year : Int) (type_ : String) :
    Except String Chart :=
  (plotHeap [PyVal.df rs] 0 year type_).2

/-! ### Concrete instances used by witnesses and counterexamples -/

/-- The zero-value fixture of the test suite: `JAN` holds `0.0`, `FEV`
holds `5000.0`. -/
def zeroGrid : Grid :=
  ⟨2,
   [⟨Cell.str "", [Cell.str "JAN", Cell.str "FEV"]⟩,
    ⟨Cell.str "RECEITA", [Cell.na, Cell.na]⟩,
    ⟨Cell.str "Salário", [Cell.num 0, Cell.num 5000]⟩]⟩

/-- The single record `zeroGrid` produces. -/
def recSalario : Record :=
  ⟨2025, some 2, "receita", some "RECEITA", "Salário", 5000⟩

/-- A grid whose second row is labelled `TRANSPORTE` — a label that is both
in `LABELS_TO_IGNORE` and in the group-header set. -/
def gridTransporte : Grid :=
  ⟨1,
   [⟨Cell.str "", [Cell.str "JAN"]⟩,
    ⟨Cell.str "TRANSPORTE", [Cell.na]⟩,
    ⟨Cell.str "x", [Cell.num 5]⟩]⟩

/-- A well-formed budget grid with only two columns in total (one label
column, one month column) — far fewer than 13. -/
def gridTwoCols : Grid :=
  ⟨1,
   [⟨Cell.str "", [Cell.str "JAN"]⟩,
    ⟨Cell.str "RECEITA", [Cell.na]⟩,
    ⟨Cell.str "Salário", [Cell.num 5000]⟩]⟩

/-- A workbook without the expected `ORÇAMENTO PESSOAL` sheet. -/
def wbMissingSheet : List (String × Grid) := [("Planilha1", gridTwoCols)]

/-- A record list whose only resolved month is January. -/
def recsJanOnly : List Record :=
  [⟨2025, some 1, "receita", none, "x", 5⟩]

/-- The sample plotting DataFrame of the test suite. -/
def sampleRecords : List Record :=
  [⟨2025, some 1, "receita", none, "a", 5000⟩,
   ⟨2025, some 1, "despesa", none, "b", 3000⟩,
   ⟨2025, some 2, "receita", none, "a", 5200⟩,
   ⟨2025, some 2, "despesa", none, "b", 3500⟩,
   ⟨2025, some 3, "receita", none, "a", 5100⟩,
   ⟨2025, some 3, "despesa", none, "b", 3200⟩]

/-! ### Lemmas about the transformer -/

theorem tipoOf_receita_iff (g : Option String) :
    tipoOf g = "receita" ↔ g = some "RECEITA" := by
  unfold tipoOf
  split_ifs with h1 h2 <;> simp_all

theorem tipoOf_aporte_iff (g : Option String) :
    tipoOf g = "aporte" ↔ g = some "APORTES" := by
  unfold tipoOf
  split_ifs with h1 h2 <;> simp_all

theorem tipoOf_despesa_iff (g : Option String) :
    tipoOf g = "despesa" ↔ (g ≠ some "RECEITA" ∧ g ≠ some "APORTES") := by
  unfold tipoOf
  split_ifs with h1 h2 <;> simp_all

theorem emitCells_ok_mem (year : Int) (grupo : Option String) (label : String)
    (siglas cells : List Cell) :
    ∀ (js : List Nat) (out : List Record),
      emitCells year grupo label siglas cells js = Except.ok out →
      ∀ r ∈ out, r.ano = year ∧ r.tipo = tipoOf grupo ∧ r.grupo = grupo ∧
        r.categoria = label ∧ r.valor ≠ 0 := by
  intro js
  induction js with
  | nil =>
    intro out h r hr
    simp only [emitCells] at h
    cases h
    cases hr
  | cons j rest ih =>
    intro out h r hr
    simp only [emitCells] at h
    split at h
    · exact ih out h r hr
    · split at h
      · cases h
      · rename_i v hv
        split at h
        · exact ih out h r hr
        · rename_i hv0
          split at h
          · cases h
          · rename_i out2 hout2
            cases h
            rcases List.mem_cons.mp hr with hre | hr2
            · subst hre
              exact ⟨rfl, rfl, rfl, rfl, hv0⟩
            · exact ih out2 hout2 r hr2

theorem rowStep_ok (year : Int) (k : Nat) (siglas : List Cell)
    (g0 : Option String) (row : DFRow) (g2 : Option String) (out : List Record)
    (h : rowStep year k siglas g0 row = Except.ok (g2, out)) :
    g2 = (if labelString row.label ∈ GROUP_HEADERS then some (labelString row.label)
          else g0) ∧
    ∀ r ∈ out, r.ano = year ∧ r.tipo = tipoOf g0 ∧ r.grupo = g0 ∧
      r.categoria = labelString row.label ∧ r.valor ≠ 0 := by
  unfold rowStep at h
  dsimp only at h
  split at h
  · rename_i hhd
    cases h
    refine ⟨(if_pos hhd).symm, ?_⟩
    intro r hr
    cases hr
  · rename_i hhd
    split at h
    · cases h
      refine ⟨(if_neg hhd).symm, ?_⟩
      intro r hr
      cases hr
    · split at h
      · cases h
      · rename_i outs houts
        cases h
        exact ⟨(if_neg hhd).symm,
          emitCells_ok_mem year g0 (labelString row.label) siglas row.cells
            (List.range k) _ houts⟩

theorem nearestHeaderFrom_cons (g0 : Option String) (row : DFRow)
    (rest : List DFRow) :
    nearestHeaderFrom g0 (row :: rest) =
      nearestHeaderFrom
        (if labelString row.label ∈ GROUP_HEADERS then some (labelString row.label)
         else g0) rest := rfl

theorem processRows_ok_props (year : Int) (k : Nat) (siglas : List Cell) :
    ∀ (rows : List DFRow) (g0 gf : Option String) (out : List Record),
      processRows year k siglas g0 rows = Except.ok (gf, out) →
      gf = nearestHeaderFrom g0 rows ∧
      ∀ r ∈ out, r.tipo = tipoOf r.grupo ∧ r.valor ≠ 0 := by
  intro rows
  induction rows with
  | nil =>
    intro g0 gf out h
    simp only [processRows] at h
    cases h
    exact ⟨rfl, by intro r hr; cases hr⟩
  | cons row rest ih =>
    intro g0 gf out h
    simp only [processRows] at h
    split at h
    · cases h
    · rename_i g1 out1 hstep
      split at h
      · cases h
      · rename_i gf2 out2 hrest
        cases h
        obtain ⟨hst, hmem⟩ := rowStep_ok year k siglas g0 row g1 out1 hstep
        obtain ⟨hst2, hmem2⟩ := ih g1 _ _ hrest
        constructor
        · rw [nearestHeaderFrom_cons, ← hst]
          exact hst2
        · intro r hr
          rcases List.mem_append.mp hr with h1 | h2
          · obtain ⟨-, ht, hg, -, hv⟩ := hmem r h1
            exact ⟨by rw [ht, hg], hv⟩
          · exact hmem2 r h2

theorem nearestHeaderFrom_append_one (g0 : Option String) (pre : List DFRow)
    (row : DFRow) :
    nearestHeaderFrom g0 (pre ++ [row]) =
      (if labelString row.label ∈ GROUP_HEADERS then some (labelString row.label)
       else nearestHeaderFrom g0 pre) := by
  unfold nearestHeaderFrom
  rw [List.foldl_append]
  rfl

theorem specGo_eq_processRows (year : Int) (k : Nat) (siglas : List Cell) :
    ∀ (rows pre : List DFRow),
      specGo year k siglas pre rows =
        (match processRows year k siglas (nearestHeaderFrom none pre) rows with
         | Except.error e => Except.error e
         | Except.ok (_, out) => Except.ok out) := by
  intro rows
  induction rows with
  | nil => intro pre; simp [specGo, processRows]
  | cons row rest ih =>
    intro pre
    simp only [specGo, processRows]
    rcases hstep : rowStep year k siglas (nearestHeaderFrom none pre) row with
      e | ⟨g2, out⟩
    · simp only [hstep]
    · have hg2 : g2 = nearestHeaderFrom none (pre ++ [row]) := by
        obtain ⟨hst, -⟩ := rowStep_ok year k siglas (nearestHeaderFrom none pre)
          row g2 out hstep
        rw [hst, nearestHeaderFrom_append_one]
      simp only [hstep]
      rw [ih (pre ++ [row]), ← hg2]
      rcases hrest : processRows year k siglas g2 rest with e | ⟨gf, out2⟩ <;>
        simp only [hrest]

theorem notStr_getD (cells : List Cell) (h : ∀ cl ∈ cells, cl.notStr = true)
    (j : Nat) : (cells.getD j Cell.na).notStr = true := by
  rcases hx : cells.get? j with - | cl
  · rw [List.getD_eq_getElem?_getD, ← List.get?_eq_getElem?, hx]
    rfl
  · rw [List.getD_eq_getElem?_getD, ← List.get?_eq_getElem?, hx]
    exact h cl (List.get?_mem hx)

theorem emitCells_eval (year : Int) (grupo : Option String) (label : String)
    (siglas cells : List Cell) :
    ∀ js : List Nat, (∀ j ∈ js, (cells.getD j Cell.na).notStr = true) →
      emitCells year grupo label siglas cells js =
        Except.ok (js.filterMap (fun j =>
          match cells.getD j Cell.na with
          | Cell.num v =>
            if v = 0 then none
            else some ⟨year, monthOf (siglas.getD j Cell.na), tipoOf grupo,
                       grupo, label, v⟩
          | _ => none)) := by
  intro js
  induction js with
  | nil => intro _; rfl
  | cons j rest ih =>
    intro h
    have hj : (cells.getD j Cell.na).notStr = true := h j (by simp)
    have hrest : ∀ x ∈ rest, (cells.getD x Cell.na).notStr = true :=
      fun x hx => h x (by simp [hx])
    simp only [emitCells, List.filterMap_cons]
    rcases hcell : cells.getD j Cell.na with - | v | s
    · simp [hcell, isna, ih hrest]
    · by_cases hv : v = 0
      · simp [hcell, isna, pyFloat, hv, ih hrest]
      · simp [hcell, isna, pyFloat, hv, ih hrest]
    · rw [hcell] at hj
      simp [Cell.notStr] at hj

theorem rowStep_category (year : Int) (k : Nat) (siglas : List Cell)
    (grupo : Option String) (row : DFRow)
    (h1 : labelString row.label ∉ GROUP_HEADERS)
    (h2 : labelString row.label ∉ LABELS_TO_IGNORE)
    (h3 : labelString row.label ≠ "")
    (h4 : ∀ j ∈ List.range k, (row.cells.getD j Cell.na).notStr = true) :
    rowStep year k siglas grupo row =
      Except.ok (grupo, (List.range k).filterMap (fun j =>
        match row.cells.getD j Cell.na with
        | Cell.num v =>
          if v = 0 then none
          else some ⟨year, monthOf (siglas.getD j Cell.na), tipoOf grupo,
                     grupo, labelString row.label, v⟩
        | _ => none)) := by
  unfold rowStep
  dsimp only
  rw [if_neg h1, if_neg (by rintro (h | h); exacts [h2 h, h3 h]),
    emitCells_eval year grupo (labelString row.label) siglas row.cells
      (List.range k) h4]

theorem minimalGrid_transform (year : Int)
    (hdrCells ghCells cells : List Cell) (gh c : String)
    (hgh : pyStrip gh ∈ GROUP_HEADERS)
    (hc1 : pyStrip c ∉ GROUP_HEADERS)
    (hc2 : pyStrip c ∉ LABELS_TO_IGNORE)
    (hc3 : pyStrip c ≠ "")
    (hcells : ∀ cl ∈ cells, cl.notStr = true) :
    transform (minimalGrid hdrCells gh ghCells c cells) year =
      Except.ok ((List.range 12).filterMap (fun j =>
        match cells.getD j Cell.na with
        | Cell.num v =>
          if v = 0 then none
          else some ⟨year, monthOf (hdrCells.getD j Cell.na),
                     tipoOf (some (pyStrip gh)), some (pyStrip gh), pyStrip c, v⟩
        | _ => none)) := by
  have h0 : rowStep year 12 hdrCells none ⟨Cell.str "", hdrCells⟩ =
      Except.ok (none, []) := by
    unfold rowStep
    dsimp only
    rw [if_neg (by decide), if_pos (by decide)]
  have h1 : rowStep year 12 hdrCells none ⟨Cell.str gh, ghCells⟩ =
      Except.ok (some (pyStrip gh), []) := by
    unfold rowStep
    dsimp only
    simp only [labelString]
    rw [if_pos hgh]
  have h2 := rowStep_category year 12 hdrCells (some (pyStrip gh))
    ⟨Cell.str c, cells⟩ hc1 hc2 hc3
    (fun j _ => notStr_getD cells hcells j)
  unfold transform minimalGrid
  dsimp only
  rw [Nat.min_self]
  simp only [processRows, h0, h1, h2, List.nil_append, List.append_nil]
  rfl

/-- C2: every record emitted by the transform has `tipo = "receita"` iff the
group current at its emission is `RECEITA`, `tipo = "aporte"` iff it is
`APORTES`, and `tipo = "despesa"` in every other case (including before any
group-header row); and the transform coincides with the reference run that
recomputes each row's group as the nearest preceding group-header label, so
`tipo` is determined solely by that nearest preceding header row. -/
theorem tipo_determined_by_nearest_group_header :
    ∀ (g : Grid) (year : Int),
      transform g year = specTransform g year ∧
      (∀ rs, transform g year = Except.ok rs → ∀ r ∈ rs,
        (r.tipo = "receita" ↔ r.grupo = some "RECEITA") ∧
        (r.tipo = "aporte" ↔ r.grupo = some "APORTES") ∧
        (r.tipo = "despesa" ↔ (r.grupo ≠ some "RECEITA" ∧ r.grupo ≠ some "APORTES"))) ∧
      (∀ (k : Nat) (siglas : List Cell) (g0 : Option String) (row : DFRow)
          (g2 : Option String) (out : List Record),
        rowStep year k siglas g0 row = Except.ok (g2, out) →
        ∀ r ∈ out, r.grupo = g0 ∧ r.tipo = tipoOf g0) := by
  intro g year
  refine ⟨?_, ?_, ?_⟩
  · obtain ⟨cols, rows⟩ := g
    cases rows with
    | nil => rfl
    | cons hdr tl =>
      exact (specGo_eq_processRows year (min 12 cols) hdr.cells (hdr :: tl) []).symm
  · intro rs hok r hr
    unfold transform at hok
    split at hok
    · cases hok
    · rename_i hdr tl heq
      dsimp only at hok
      split at hok
      · cases hok
      · rename_i gf out hpr
        cases hok
        obtain ⟨-, hprops⟩ :=
          processRows_ok_props year (min 12 g.cols) hdr.cells g.rows none gf rs hpr
        obtain ⟨ht, -⟩ := hprops r hr
        exact ⟨by rw [ht]; exact tipoOf_receita_iff r.grupo,
               by rw [ht]; exact tipoOf_aporte_iff r.grupo,
               by rw [ht]; exact tipoOf_despesa_iff r.grupo⟩
  · intro k siglas g0 row g2 out hstep r hr
    obtain ⟨-, hmem⟩ := rowStep_ok year k siglas g0 row g2 out hstep
    obtain ⟨-, ht, hg, -, -⟩ := hmem r hr
    exact ⟨hg, ht⟩

/-- Witness for C2: the zero-value fixture grid, whose single record is the
February `Salário` income, classified `receita` because the current group at
emission is `RECEITA`. -/
theorem tipo_determined_by_nearest_group_header_witness :
    ((recSalario.tipo = "receita" ↔ recSalario.grupo = some "RECEITA") ∧
     (recSalario.tipo = "aporte" ↔ recSalario.grupo = some "APORTES") ∧
     (recSalario.tipo = "despesa" ↔
       (recSalario.grupo ≠ some "RECEITA" ∧ recSalario.grupo ≠ some "APORTES"))) ∧
    (recSalario.grupo = some "RECEITA" ∧ recSalario.tipo = tipoOf (some "RECEITA")) := by
  refine ⟨(tipo_determined_by_nearest_group_header zeroGrid 2025).2.1
    [recSalario] rfl recSalario (by simp), ?_⟩
  exact (tipo_determined_by_nearest_group_header zeroGrid 2025).2.2
    2 [Cell.str "JAN", Cell.str "FEV"] (some "RECEITA")
    ⟨Cell.str "Salário", [Cell.num 0, Cell.num 5000]⟩
    (some "RECEITA") [recSalario] rfl recSalario (by simp)

/-- Counterexample to C1 as stated: `TRANSPORTE` is in the ignorable label
set, yet a row labelled `TRANSPORTE` does change `grupo_atual` (from `none`
to `some "TRANSPORTE"`), because the group-header check runs before the
ignore check; the record of the following category row carries the changed
group. -/
theorem ignorable_label_changes_group_counterexample :
    "TRANSPORTE" ∈ LABELS_TO_IGNORE ∧
    rowStep 2025 1 [Cell.str "JAN"] none ⟨Cell.str "TRANSPORTE", [Cell.na]⟩ =
      Except.ok (some "TRANSPORTE", []) ∧
    (some "TRANSPORTE" : Option String) ≠ none ∧
    transform gridTransporte 2025 =
      Except.ok [⟨2025, some 1, "despesa", some "TRANSPORTE", "x", 5⟩] :=
  ⟨by decide, rfl, by decide, rfl⟩

/-- C1 amended: a row whose stripped label is in the ignorable set emits no
record; it leaves `grupo_atual` unchanged unless the label is also a
group-header label (every group-header label is in the ignorable set), in
which case `grupo_atual` becomes that label. -/
theorem ignorable_rows_emit_nothing :
    ∀ (year : Int) (k : Nat) (siglas : List Cell) (grupo : Option String)
      (row : DFRow),
      labelString row.label ∈ LABELS_TO_IGNORE →
      rowStep year k siglas grupo row =
        Except.ok
          ((if labelString row.label ∈ GROUP_HEADERS
            then some (labelString row.label) else grupo), []) := by
  intro year k siglas grupo row hmem
  unfold rowStep
  dsimp only
  by_cases hh : labelString row.label ∈ GROUP_HEADERS
  · rw [if_pos hh, if_pos hh]
  · rw [if_neg hh, if_neg hh, if_pos (Or.inl hmem)]

/-- Witness for C1 amended: a `Total` row under group `LAZER` emits nothing
and leaves the group at `LAZER`, even though its cell is a nonzero number. -/
theorem ignorable_rows_emit_nothing_witness :
    "Total" ∈ LABELS_TO_IGNORE ∧
    rowStep 2025 1 [Cell.str "JAN"] (some "LAZER")
        ⟨Cell.str "Total", [Cell.num 99]⟩ =
      Except.ok (some "LAZER", []) := by
  refine ⟨by decide, ?_⟩
  rw [ignorable_rows_emit_nothing 2025 1 [Cell.str "JAN"] (some "LAZER")
    ⟨Cell.str "Total", [Cell.num 99]⟩ (by decide), if_neg (by decide)]

/-- C3: every record the transform emits has a nonzero `valor`; a missing
(`NaN`) or numerically zero month cell never produces a record. -/
theorem emitted_valor_ne_zero :
    ∀ (g : Grid) (year : Int) (rs : List Record),
      transform g year = Except.ok rs → ∀ r ∈ rs, r.valor ≠ 0 := by
  intro g year rs hok r hr
  unfold transform at hok
  split at hok
  · cases hok
  · rename_i hdr tl heq
    dsimp only at hok
    split at hok
    · cases hok
    · rename_i gf out hpr
      cases hok
      obtain ⟨-, hprops⟩ :=
        processRows_ok_props year (min 12 g.cols) hdr.cells g.rows none gf rs hpr
      exact (hprops r hr).2

/-- Witness for C3: the zero-value fixture emits exactly the February
record, whose `valor` is nonzero; the January `0.0` cell emitted nothing. -/
theorem emitted_valor_ne_zero_witness : recSalario.valor ≠ 0 :=
  emitted_valor_ne_zero zeroGrid 2025 [recSalario] rfl recSalario (by simp)

/-- C4: on a minimal grid — a month header row, one group-header row, one
category row — the transform emits exactly one record per non-missing,
nonzero month cell of the category row, each record carrying the header
label as `grupo` and the category row's stripped label as `categoria`. -/
theorem minimal_grid_roundtrip :
    ∀ (year : Int) (hdrCells ghCells cells : List Cell) (gh c : String),
      pyStrip gh ∈ GROUP_HEADERS →
      pyStrip c ∉ GROUP_HEADERS → pyStrip c ∉ LABELS_TO_IGNORE →
      pyStrip c ≠ "" →
      (∀ cl ∈ cells, cl.notStr = true) →
      transform (minimalGrid hdrCells gh ghCells c cells) year =
        Except.ok ((List.range 12).filterMap (fun j =>
          match cells.getD j Cell.na with
          | Cell.num v =>
            if v = 0 then none
            else some ⟨year, monthOf (hdrCells.getD j Cell.na),
                       tipoOf (some (pyStrip gh)), some (pyStrip gh),
                       pyStrip c, v⟩
          | _ => none)) := by
  intro year hdrCells ghCells cells gh c hgh hc1 hc2 hc3 hcells
  exact minimalGrid_transform year hdrCells ghCells cells gh c hgh hc1 hc2 hc3 hcells

/-- Witness for C4: `0.0` in January, `850.0` in February — exactly one
record is emitted, for the nonzero February cell, under the header group. -/
theorem minimal_grid_roundtrip_witness :
    transform (minimalGrid [Cell.str "JAN", Cell.str "FEV"] "RECEITA" []
      "Salário" [Cell.num 0, Cell.num 850]) 2025 =
      Except.ok [⟨2025, some 2, "receita", some "RECEITA", "Salário", 850⟩] := by
  rw [minimal_grid_roundtrip 2025 [Cell.str "JAN", Cell.str "FEV"] []
    [Cell.num 0, Cell.num 850] "RECEITA" "Salário"
    (by decide) (by decide) (by decide) (by decide) (by decide)]
  rfl

/-- C5: a month code absent from `MONTHS_MAP` does not prevent emission and
raises no error: the nonzero cells of its column still produce records,
with `mes = none`. -/
theorem unresolved_month_still_emits :
    ∀ (year : Int) (s gh c : String) (v : ℚ),
      MONTHS_MAP.find? (fun p => p.1 = s) = none →
      pyStrip gh ∈ GROUP_HEADERS →
      pyStrip c ∉ GROUP_HEADERS → pyStrip c ∉ LABELS_TO_IGNORE →
      pyStrip c ≠ "" →
      v ≠ 0 →
      transform (minimalGrid [Cell.str s] gh [] c [Cell.num v]) year =
        Except.ok [⟨year, none, tipoOf (some (pyStrip gh)),
                    some (pyStrip gh), pyStrip c, v⟩] := by
  intro year s gh c v hs hgh hc1 hc2 hc3 hv
  rw [minimalGrid_transform year [Cell.str s] [] [Cell.num v] gh c hgh hc1 hc2 hc3
    (by intro cl hcl; simp only [List.mem_singleton] at hcl; subst hcl; rfl)]
  have hrange : List.range 12 = [0, 1, 2, 3, 4, 5, 6, 7, 8, 9, 10, 11] := rfl
  rw [hrange]
  simp [List.filterMap_cons, List.getD, monthOf, hs, hv]

/-- Witness for C5: month code `XYZ` is not in the table; the `100` cell
still yields a record, with an undefined month. -/
theorem unresolved_month_still_emits_witness :
    transform (minimalGrid [Cell.str "XYZ"] "APORTES" [] "Poupança"
      [Cell.num 100]) 2025 =
      Except.ok [⟨2025, none, "aporte", some "APORTES", "Poupança", 100⟩] := by
  rw [unresolved_month_still_emits 2025 "XYZ" "APORTES" "Poupança" 100
    (by decide) (by decide) (by decide) (by decide) (by decide) (by decide)]
  rfl

/-- C9: a negative month cell is not skipped: the transform emits a record
with `valor` equal to the negative value (only `NaN` and exactly-zero cells
are excluded). -/
theorem negative_cell_emits_record :
    ∀ (year : Int) (hdrCells cells : List Cell) (gh c : String)
      (j : Nat) (v : ℚ),
      pyStrip gh ∈ GROUP_HEADERS →
      pyStrip c ∉ GROUP_HEADERS → pyStrip c ∉ LABELS_TO_IGNORE →
      pyStrip c ≠ "" →
      (∀ cl ∈ cells, cl.notStr = true) →
      j < 12 → cells.getD j Cell.na = Cell.num v → v < 0 →
      ∃ rs, transform (minimalGrid hdrCells gh [] c cells) year = Except.ok rs ∧
        (⟨year, monthOf (hdrCells.getD j Cell.na), tipoOf (some (pyStrip gh)),
          some (pyStrip gh), pyStrip c, v⟩ : Record) ∈ rs := by
  intro year hdrCells cells gh c j v hgh hc1 hc2 hc3 hcells hj hcell hv
  refine ⟨_, minimalGrid_transform year hdrCells [] cells gh c hgh hc1 hc2 hc3 hcells, ?_⟩
  refine List.mem_filterMap.mpr ⟨j, List.mem_range.mpr hj, ?_⟩
  rw [hcell]
  dsimp only
  rw [if_neg (ne_of_lt hv)]

/-- Witness for C9: a `-50` cell in January produces a record with
`valor = -50`. -/
theorem negative_cell_emits_record_witness :
    ∃ rs, transform (minimalGrid [Cell.str "JAN"] "LAZER" [] "Cinema"
        [Cell.num (-50)]) 2025 = Except.ok rs ∧
      (⟨2025, some 1, "despesa", some "LAZER", "Cinema", -50⟩ : Record) ∈ rs := by
  have h := negative_cell_emits_record 2025 [Cell.str "JAN"] [Cell.num (-50)]
    "LAZER" "Cinema" 0 (-50) (by decide) (by decide) (by decide) (by decide)
    (by decide) (by decide) rfl (by norm_num)
  simpa using h

theorem rowStep_total (year : Int) (k : Nat) (siglas : List Cell)
    (grupo : Option String) (row : DFRow)
    (h : labelString row.label ∉ GROUP_HEADERS →
      labelString row.label ∉ LABELS_TO_IGNORE → labelString row.label ≠ "" →
      ∀ cl ∈ row.cells, cl.notStr = true) :
    ∃ g2 out, rowStep year k siglas grupo row = Except.ok (g2, out) := by
  unfold rowStep
  dsimp only
  by_cases hh : labelString row.label ∈ GROUP_HEADERS
  · rw [if_pos hh]
    exact ⟨_, _, rfl⟩
  · rw [if_neg hh]
    by_cases hi : labelString row.label ∈ LABELS_TO_IGNORE ∨ labelString row.label = ""
    · rw [if_pos hi]
      exact ⟨_, _, rfl⟩
    · rw [if_neg hi,
        emitCells_eval year grupo (labelString row.label) siglas row.cells
          (List.range k)
          (fun j _ => notStr_getD row.cells
            (h hh (fun hx => hi (Or.inl hx)) (fun hx => hi (Or.inr hx))) j)]
      exact ⟨_, _, rfl⟩

theorem processRows_total (year : Int) (k : Nat) (siglas : List Cell) :
    ∀ (rows : List DFRow) (g0 : Option String),
      (∀ row ∈ rows, labelString row.label ∉ GROUP_HEADERS →
        labelString row.label ∉ LABELS_TO_IGNORE → labelString row.label ≠ "" →
        ∀ cl ∈ row.cells, cl.notStr = true) →
      ∃ gf out, processRows year k siglas g0 rows = Except.ok (gf, out) := by
  intro rows
  induction rows with
  | nil => intro g0 _; exact ⟨g0, [], rfl⟩
  | cons row rest ih =>
    intro g0 h
    obtain ⟨g2, out, hstep⟩ := rowStep_total year k siglas g0 row
      (h row (by simp))
    obtain ⟨gf, out2, hrest⟩ := ih g2 (fun r hr => h r (by simp [hr]))
    refine ⟨gf, out ++ out2, ?_⟩
    simp only [processRows, hstep, hrest]

/-- Counterexample to C6 as stated: a grid with only two columns in total —
far fewer than 13 — does not make `load_budget_excel` fail: the transform
silently processes the single month column present and returns its record. -/
theorem few_columns_no_error_counterexample :
    gridTwoCols.cols + 1 < 13 ∧
    load_budget_excel [(SHEET_NAME, gridTwoCols)] 2025 =
      Except.ok [⟨2025, some 1, "receita", some "RECEITA", "Salário", 5000⟩] :=
  ⟨by decide, rfl⟩

/-- C6 amended: only the missing expected sheet makes `load_budget_excel`
fail (the spreadsheet reader raises); a grid with fewer than 13 columns is
not an error — whenever the sheet is present, its row list nonempty and its
month cells non-textual, the call succeeds whatever the column count. -/
theorem structural_failure_only_missing_sheet :
    ∀ (wb : List (String × Grid)) (year : Int),
      (wb.find? (fun p => p.1 = SHEET_NAME) = none →
        ∃ e, load_budget_excel wb year = Except.error e) ∧
      (∀ p, wb.find? (fun p2 => p2.1 = SHEET_NAME) = some p →
        p.2.rows ≠ [] →
        (∀ row ∈ p.2.rows, labelString row.label ∉ GROUP_HEADERS →
          labelString row.label ∉ LABELS_TO_IGNORE →
          labelString row.label ≠ "" →
          ∀ cl ∈ row.cells, cl.notStr = true) →
        ∃ rs, load_budget_excel wb year = Except.ok rs) := by
  intro wb year
  constructor
  · intro hnone
    unfold load_budget_excel readSheet
    rw [hnone]
    exact ⟨_, rfl⟩
  · intro p hfind hrows hcells
    rcases hlist : p.2.rows with - | ⟨hd, tl⟩
    · exact absurd hlist hrows
    · obtain ⟨gf, out, hpr⟩ :=
        processRows_total year (min 12 p.2.cols) hd.cells (hd :: tl) none
          (by rw [← hlist]; exact hcells)
      refine ⟨out, ?_⟩
      unfold load_budget_excel readSheet transform
      rw [hfind]
      dsimp only
      rw [hlist]
      dsimp only
      rw [hpr]

/-- Witness for C6 amended: a workbook without the `ORÇAMENTO PESSOAL`
sheet fails, while the two-column grid loads successfully. -/
theorem structural_failure_only_missing_sheet_witness :
    (∃ e, load_budget_excel wbMissingSheet 2025 = Except.error e) ∧
    (∃ rs, load_budget_excel [(SHEET_NAME, gridTwoCols)] 2025 = Except.ok rs) := by
  constructor
  · exact (structural_failure_only_missing_sheet wbMissingSheet 2025).1 rfl
  · exact (structural_failure_only_missing_sheet
      [(SHEET_NAME, gridTwoCols)] 2025).2 (SHEET_NAME, gridTwoCols) rfl
      (by decide) (by decide)

/-- C8: every chart-type argument outside `line`/`bar`/`saldo` makes
`plot_chart_by_type` fail — no chart is produced — with the `ValueError`
message naming the offending value (its Python repr) and the three valid
options. -/
theorem invalid_chart_type_errors :
    ∀ (rs : List Record) (year : Int) (t : String),
      t ≠ "line" → t ≠ "bar" → t ≠ "saldo" →
      plot_chart_by_type rs year t =
        Except.error ("chart_type inválido: " ++ pyRepr t ++
          ". Use \x27line\x27, \x27bar\x27 ou \x27saldo\x27.") := by
  intro rs year t h1 h2 h3
  unfold plot_chart_by_type plotHeap
  simp only [List.getElem?_cons_zero]
  rw [if_neg h1, if_neg h2, if_neg h3]
  rfl

/-- Witness for C8: `oops` is rejected with the full message. -/
theorem invalid_chart_type_errors_witness :
    plot_chart_by_type sampleRecords 2025 "oops" =
      Except.error
        "chart_type inválido: \x27oops\x27. Use \x27line\x27, \x27bar\x27 ou \x27saldo\x27." := by
  rw [invalid_chart_type_errors sampleRecords 2025 "oops"
    (by decide) (by decide) (by decide)]
  rfl

/-- C10: `plot_chart_by_type` never mutates the caller's DataFrame: after a
run over an explicit object heap — whichever chart type, valid or not — the
heap cell holding the input records is unchanged; all column assignments hit
the freshly allocated `base` object. -/
theorem input_dataframe_unchanged :
    ∀ (h : List PyVal) (dfRef : Nat) (year : Int) (t : String)
      (rs : List Record),
      h[dfRef]? = some (PyVal.df rs) →
      (plotHeap h dfRef year t).1[dfRef]? = some (PyVal.df rs) := by
  intro h dfRef year t rs hdf
  have hlt : dfRef < h.length := by
    rcases Nat.lt_or_ge dfRef h.length with hl | hge
    · exact hl
    · rw [List.getElem?_eq_none hge] at hdf
      cases hdf
  unfold plotHeap
  rw [hdf]
  dsimp only
  have hne : (h ++ [PyVal.df (filterYear rs year)]).length ≠ dfRef := by
    rw [List.length_append]
    simp only [List.length_singleton]
    omega
  have hseteq : ∀ (hp : List PyVal) (v : PyVal),
      (hp.set (h ++ [PyVal.df (filterYear rs year)]).length v)[dfRef]? =
        hp[dfRef]? :=
    fun hp v => List.getElem?_set_ne hne
  have happ1 : (h ++ [PyVal.df (filterYear rs year)])[dfRef]? =
      some (PyVal.df rs) := by
    rw [List.getElem?_append_left hlt]
    exact hdf
  have happ2 : ((h ++ [PyVal.df (filterYear rs year)]) ++
      [PyVal.table (unstackTable (groupPairs (filterYear rs year)))])[dfRef]? =
      some (PyVal.df rs) := by
    rw [List.getElem?_append_left
      (by rw [List.length_append]; simp only [List.length_singleton]; omega)]
    exact happ1
  split_ifs <;> dsimp only <;> simp only [hseteq, happ2]

/-- Witness for C10: a concrete one-object heap holding the sample records
is unchanged at the DataFrame's cell by a `line` run. -/
theorem input_dataframe_unchanged_witness :
    (plotHeap [PyVal.df sampleRecords] 0 2025 "line").1[0]? =
      some (PyVal.df sampleRecords) :=
  input_dataframe_unchanged [PyVal.df sampleRecords] 0 2025 "line"
    sampleRecords rfl

/-! ### Lemmas about the aggregation -/

theorem pairLookup_upsert_self (k : Nat × String) (v : ℚ) :
    ∀ acc : List ((Nat × String) × ℚ),
      pairLookup (upsert acc k v) k = some ((pairLookup acc k).getD 0 + v) := by
  intro acc
  induction acc with
  | nil => simp [upsert, pairLookup]
  | cons p rest ih =>
    obtain ⟨k2, s⟩ := p
    by_cases hk : k2 = k
    · subst hk
      simp [upsert, pairLookup]
    · simp only [upsert, if_neg hk]
      simp only [pairLookup, List.find?] at ih ⊢
      rw [show (decide (k2 = k)) = false from decide_eq_false hk]
      exact ih

theorem pairLookup_upsert_ne (k k2 : Nat × String) (v : ℚ) (h : k2 ≠ k) :
    ∀ acc : List ((Nat × String) × ℚ),
      pairLookup (upsert acc k v) k2 = pairLookup acc k2 := by
  intro acc
  induction acc with
  | nil =>
    simp only [upsert, pairLookup, List.find?]
    rw [show decide (k = k2) = false from decide_eq_false (Ne.symm h)]
  | cons p rest ih =>
    obtain ⟨k3, s⟩ := p
    by_cases hk : k3 = k
    · subst hk
      simp only [upsert, if_pos rfl]
      simp only [pairLookup, List.find?]
      rw [show decide (k3 = k2) = false from decide_eq_false (fun he => h he.symm)]
    · simp only [upsert, if_neg hk]
      simp only [pairLookup, List.find?] at ih ⊢
      cases hd : decide (k3 = k2) with
      | true => rfl
      | false => exact ih
theorem groupPairs_lookup_fold (k : Nat × String) :
    ∀ (rs : List Record) (acc : List ((Nat × String) × ℚ)),
      (pairLookup (rs.foldl groupStep acc) k).getD 0 =
        (pairLookup acc k).getD 0 +
          ((rs.filter (fun r => decide (r.mes = some k.1 ∧ r.tipo = k.2))).map
            (fun r => r.valor)).sum := by
  intro rs
  induction rs with
  | nil => intro acc; simp
  | cons r rest ih =>
    intro acc
    rw [List.foldl_cons, ih (groupStep acc r), List.filter_cons]
    rcases hmes : r.mes with - | m
    · have hstep : groupStep acc r = acc := by
        unfold groupStep
        rw [hmes]
      rw [hstep]
      simp
    · have hstep : groupStep acc r = upsert acc (m, r.tipo) r.valor := by
        unfold groupStep
        rw [hmes]
      by_cases hk : (m, r.tipo) = k
      · subst hk
        rw [hstep, pairLookup_upsert_self (m, r.tipo) r.valor acc]
        have hp : (decide (some m = some (m, r.tipo).1 ∧
            r.tipo = (m, r.tipo).2)) = true := by simp
        rw [hp]
        simp [add_assoc]
      · rw [hstep, pairLookup_upsert_ne (m, r.tipo) k r.valor (Ne.symm hk) acc]
        have hp : (decide (some m = some k.1 ∧ r.tipo = k.2)) = false := by
          refine decide_eq_false ?_
          rintro ⟨h1, h2⟩
          injection h1 with h1
          refine hk ?_
          rw [h1, h2]
        rw [hp]
        simp

theorem upsert_fst_mem (k : Nat × String) (v : ℚ) (m : Nat) :
    ∀ acc : List ((Nat × String) × ℚ),
      (∃ p ∈ upsert acc k v, p.1.1 = m) ↔ (∃ p ∈ acc, p.1.1 = m) ∨ k.1 = m := by
  intro acc
  induction acc with
  | nil => simp [upsert]
  | cons p rest ih =>
    obtain ⟨k2, s⟩ := p
    by_cases hk : k2 = k
    · subst hk
      have hu : upsert ((k2, s) :: rest) k2 v = (k2, s + v) :: rest := by
        simp [upsert]
      rw [hu]
      simp only [List.mem_cons]
      constructor
      · rintro ⟨q, hq | hq, hqm⟩
        · subst hq; exact Or.inl ⟨(k2, s), Or.inl rfl, hqm⟩
        · exact Or.inl ⟨q, Or.inr hq, hqm⟩
      · rintro (⟨q, hq | hq, hqm⟩ | hm)
        · subst hq; exact ⟨(k2, s + v), Or.inl rfl, hqm⟩
        · exact ⟨q, Or.inr hq, hqm⟩
        · exact ⟨(k2, s + v), Or.inl rfl, hm⟩
    · have hu : upsert ((k2, s) :: rest) k v = (k2, s) :: upsert rest k v := by
        simp [upsert, hk]
      rw [hu]
      simp only [List.mem_cons]
      constructor
      · rintro ⟨q, hq | hq, hqm⟩
        · subst hq; exact Or.inl ⟨(k2, s), Or.inl rfl, hqm⟩
        · rcases (ih.mp ⟨q, hq, hqm⟩) with ⟨q2, hq2, hq2m⟩ | hm
          · exact Or.inl ⟨q2, Or.inr hq2, hq2m⟩
          · exact Or.inr hm
      · rintro (⟨q, hq | hq, hqm⟩ | hm)
        · subst hq; exact ⟨(k2, s), Or.inl rfl, hqm⟩
        · obtain ⟨q2, hq2, hq2m⟩ := ih.mpr (Or.inl ⟨q, hq, hqm⟩)
          exact ⟨q2, Or.inr hq2, hq2m⟩
        · obtain ⟨q2, hq2, hq2m⟩ := ih.mpr (Or.inr hm)
          exact ⟨q2, Or.inr hq2, hq2m⟩

theorem groupPairs_fst_mem (m : Nat) :
    ∀ (rs : List Record) (acc : List ((Nat × String) × ℚ)),
      (∃ p ∈ rs.foldl groupStep acc, p.1.1 = m) ↔
        (∃ p ∈ acc, p.1.1 = m) ∨ ∃ r ∈ rs, r.mes = some m := by
  intro rs
  induction rs with
  | nil => intro acc; simp
  | cons r rest ih =>
    intro acc
    rw [List.foldl_cons, ih (groupStep acc r)]
    rcases hmes : r.mes with - | m2
    · have hstep : groupStep acc r = acc := by
        unfold groupStep
        rw [hmes]
      rw [hstep]
      simp only [List.mem_cons]
      constructor
      · rintro (h | h)
        · exact Or.inl h
        · obtain ⟨r2, hr2, hr2m⟩ := h
          exact Or.inr ⟨r2, Or.inr hr2, hr2m⟩
      · rintro (h | ⟨r2, hr2 | hr2, hr2m⟩)
        · exact Or.inl h
        · subst hr2; rw [hmes] at hr2m; cases hr2m
        · exact Or.inr ⟨r2, hr2, hr2m⟩
    · have hstep : groupStep acc r = upsert acc (m2, r.tipo) r.valor := by
        unfold groupStep
        rw [hmes]
      rw [hstep, upsert_fst_mem (m2, r.tipo) r.valor m acc]
      simp only [List.mem_cons]
      constructor
      · rintro ((h | h) | h)
        · exact Or.inl h
        · exact Or.inr ⟨r, Or.inl rfl, by rw [hmes, h]⟩
        · obtain ⟨r2, hr2, hr2m⟩ := h
          exact Or.inr ⟨r2, Or.inr hr2, hr2m⟩
      · rintro (h | ⟨r2, hr2 | hr2, hr2m⟩)
        · exact Or.inl (Or.inl h)
        · subst hr2
          rw [hmes] at hr2m
          injection hr2m with hr2m
          exact Or.inl (Or.inr hr2m)
        · exact Or.inr ⟨r2, hr2, hr2m⟩

theorem insertSortedNat_mem (m : Nat) :
    ∀ (l : List Nat) (a : Nat), a ∈ insertSortedNat m l ↔ a = m ∨ a ∈ l := by
  intro l
  induction l with
  | nil => intro a; simp [insertSortedNat]
  | cons n rest ih =>
    intro a
    simp only [insertSortedNat]
    by_cases h1 : m = n
    · rw [if_pos h1]
      subst h1
      simp only [List.mem_cons]
      tauto
    · rw [if_neg h1]
      by_cases h2 : m < n
      · rw [if_pos h2]
        simp only [List.mem_cons]
      · rw [if_neg h2]
        simp only [List.mem_cons, ih]
        tauto

theorem insertSortedNat_sorted (m : Nat) :
    ∀ l : List Nat, l.Sorted (· < ·) → (insertSortedNat m l).Sorted (· < ·) := by
  intro l
  induction l with
  | nil => intro _; simp [insertSortedNat]
  | cons n rest ih =>
    intro hs
    rw [List.sorted_cons] at hs
    obtain ⟨hn, hrest⟩ := hs
    simp only [insertSortedNat]
    by_cases h1 : m = n
    · rw [if_pos h1]
      exact List.sorted_cons.mpr ⟨hn, hrest⟩
    · rw [if_neg h1]
      by_cases h2 : m < n
      · rw [if_pos h2]
        refine List.sorted_cons.mpr ⟨?_, List.sorted_cons.mpr ⟨hn, hrest⟩⟩
        intro b hb
        rcases List.mem_cons.mp hb with hb | hb
        · rw [hb]; exact h2
        · exact lt_trans h2 (hn b hb)
      · rw [if_neg h2]
        have hnm : n < m :=
          lt_of_le_of_ne (not_lt.mp h2) (fun he => h1 he.symm)
        refine List.sorted_cons.mpr ⟨?_, ih hrest⟩
        intro b hb
        rcases (insertSortedNat_mem m rest b).mp hb with hb | hb
        · rw [hb]; exact hnm
        · exact hn b hb

theorem insertSortedStr_mem (t : String) :
    ∀ (l : List String) (a : String),
      a ∈ insertSortedStr t l ↔ a = t ∨ a ∈ l := by
  intro l
  induction l with
  | nil => intro a; simp [insertSortedStr]
  | cons n rest ih =>
    intro a
    simp only [insertSortedStr]
    by_cases h1 : t = n
    · rw [if_pos h1]
      subst h1
      simp only [List.mem_cons]
      tauto
    · rw [if_neg h1]
      by_cases h2 : t < n
      · rw [if_pos h2]
        simp only [List.mem_cons]
      · rw [if_neg h2]
        simp only [List.mem_cons, ih]
        tauto

theorem sortedMeses_mem_fold (m : Nat) :
    ∀ (ps : List ((Nat × String) × ℚ)) (acc : List Nat),
      m ∈ ps.foldl (fun acc2 p => insertSortedNat p.1.1 acc2) acc ↔
        m ∈ acc ∨ ∃ p ∈ ps, p.1.1 = m := by
  intro ps
  induction ps with
  | nil => intro acc; simp
  | cons p rest ih =>
    intro acc
    rw [List.foldl_cons, ih (insertSortedNat p.1.1 acc)]
    simp only [List.mem_cons, insertSortedNat_mem]
    constructor
    · rintro ((h | h) | h)
      · exact Or.inr ⟨p, Or.inl rfl, h.symm⟩
      · exact Or.inl h
      · obtain ⟨q, hq, hqm⟩ := h
        exact Or.inr ⟨q, Or.inr hq, hqm⟩
    · rintro (h | ⟨q, hq | hq, hqm⟩)
      · exact Or.inl (Or.inr h)
      · rw [hq] at hqm
        exact Or.inl (Or.inl hqm.symm)
      · exact Or.inr ⟨q, hq, hqm⟩

theorem sortedTipos_mem_fold (t : String) :
    ∀ (ps : List ((Nat × String) × ℚ)) (acc : List String),
      t ∈ ps.foldl (fun acc2 p => insertSortedStr p.1.2 acc2) acc ↔
        t ∈ acc ∨ ∃ p ∈ ps, p.1.2 = t := by
  intro ps
  induction ps with
  | nil => intro acc; simp
  | cons p rest ih =>
    intro acc
    rw [List.foldl_cons, ih (insertSortedStr p.1.2 acc)]
    simp only [List.mem_cons, insertSortedStr_mem]
    constructor
    · rintro ((h | h) | h)
      · exact Or.inr ⟨p, Or.inl rfl, h.symm⟩
      · exact Or.inl h
      · obtain ⟨q, hq, hqm⟩ := h
        exact Or.inr ⟨q, Or.inr hq, hqm⟩
    · rintro (h | ⟨q, hq | hq, hqm⟩)
      · exact Or.inl (Or.inr h)
      · rw [hq] at hqm
        exact Or.inl (Or.inl hqm.symm)
      · exact Or.inr ⟨q, hq, hqm⟩

theorem sortedMeses_sorted_fold :
    ∀ (ps : List ((Nat × String) × ℚ)) (acc : List Nat),
      acc.Sorted (· < ·) →
      (ps.foldl (fun acc2 p => insertSortedNat p.1.1 acc2) acc).Sorted (· < ·) := by
  intro ps
  induction ps with
  | nil => intro acc h; exact h
  | cons p rest ih =>
    intro acc h
    rw [List.foldl_cons]
    exact ih (insertSortedNat p.1.1 acc) (insertSortedNat_sorted p.1.1 acc h)

theorem find?_map_key (f : String → List ℚ) (t : String) :
    ∀ ts : List String,
      ((ts.map (fun t2 => (t2, f t2))).find? (fun p => p.1 = t)) =
        if t ∈ ts then some (t, f t) else none := by
  intro ts
  induction ts with
  | nil => simp
  | cons t2 rest ih =>
    simp only [List.map_cons]
    by_cases h : t2 = t
    · subst h
      rw [List.find?_cons_of_pos _ (by simp), if_pos (List.mem_cons_self t2 rest)]
    · rw [List.find?_cons_of_neg _ (by simp [h]), ih]
      by_cases hr : t ∈ rest
      · rw [if_pos hr, if_pos (List.mem_cons_of_mem t2 hr)]
      · rw [if_neg hr, if_neg (by
          intro hc
          rcases List.mem_cons.mp hc with hc | hc
          · exact h hc.symm
          · exact hr hc)]

theorem find?_replace_self (n : String) (vs : List ℚ) :
    ∀ cols : List (String × List ℚ),
      (cols.find? (fun p => p.1 = n)).isSome = true →
      ((cols.map (fun p => if p.1 = n then (p.1, vs) else p)).find?
        (fun p => p.1 = n)) = some (n, vs) := by
  intro cols
  induction cols with
  | nil => intro h; cases h
  | cons p rest ih =>
    intro h
    by_cases hp : p.1 = n
    · simp only [List.map_cons, if_pos hp]
      rw [List.find?_cons_of_pos _ (by simp [hp])]
      rw [hp]
    · simp only [List.map_cons, if_neg hp]
      rw [List.find?_cons_of_neg _ (by simp [hp])]
      refine ih ?_
      rw [List.find?_cons_of_neg _ (by simp [hp])] at h
      exact h

theorem find?_append_single_self (n : String) (vs : List ℚ) :
    ∀ cols : List (String × List ℚ),
      cols.find? (fun p => p.1 = n) = none →
      ((cols ++ [(n, vs)]).find? (fun p => p.1 = n)) = some (n, vs) := by
  intro cols
  induction cols with
  | nil =>
    intro _
    rw [List.nil_append, List.find?_cons_of_pos _ (by simp)]
  | cons p rest ih =>
    intro h
    by_cases hp : p.1 = n
    · rw [List.find?_cons_of_pos _ (by simp [hp])] at h
      cases h
    · rw [List.find?_cons_of_neg _ (by simp [hp])] at h
      rw [List.cons_append, List.find?_cons_of_neg _ (by simp [hp])]
      exact ih h

theorem find?_replace_ne (n n2 : String) (vs : List ℚ) (h : n2 ≠ n) :
    ∀ cols : List (String × List ℚ),
      ((cols.map (fun p => if p.1 = n then (p.1, vs) else p)).find?
        (fun p => p.1 = n2)) = cols.find? (fun p => p.1 = n2) := by
  intro cols
  induction cols with
  | nil => rfl
  | cons p rest ih =>
    by_cases hp2 : p.1 = n2
    · simp only [List.map_cons]
      by_cases hp : p.1 = n
      · exact absurd (hp2.symm.trans hp) h
      · rw [if_neg hp, List.find?_cons_of_pos _ (by simp [hp2]),
          List.find?_cons_of_pos _ (by simp [hp2])]
    · simp only [List.map_cons]
      by_cases hp : p.1 = n
      · rw [if_pos hp, List.find?_cons_of_neg _ (by simp [hp2]),
          List.find?_cons_of_neg _ (by simp [hp2])]
        exact ih
      · rw [if_neg hp, List.find?_cons_of_neg _ (by simp [hp2]),
          List.find?_cons_of_neg _ (by simp [hp2])]
        exact ih

theorem find?_append_single_ne (n n2 : String) (vs : List ℚ) (h : n2 ≠ n) :
    ∀ cols : List (String × List ℚ),
      ((cols ++ [(n, vs)]).find? (fun p => p.1 = n2)) =
        cols.find? (fun p => p.1 = n2) := by
  intro cols
  induction cols with
  | nil =>
    rw [List.nil_append, List.find?_cons_of_neg _ (by simp [Ne.symm h])]
  | cons p rest ih =>
    by_cases hp2 : p.1 = n2
    · rw [List.cons_append, List.find?_cons_of_pos _ (by simp [hp2]),
        List.find?_cons_of_pos _ (by simp [hp2])]
    · rw [List.cons_append, List.find?_cons_of_neg _ (by simp [hp2]),
        List.find?_cons_of_neg _ (by simp [hp2])]
      exact ih

theorem getCol_setCol_self (b : Table) (n : String) (vs : List ℚ) :
    (b.setCol n vs).getCol n = some vs := by
  unfold Table.setCol Table.hasCol Table.getCol
  split
  · rename_i h
    rw [find?_replace_self n vs b.cols h]
    rfl
  · rename_i h
    rw [find?_append_single_self n vs b.cols
      (Option.not_isSome_iff_eq_none.mp (by simpa using h))]
    rfl

theorem getCol_setCol_ne (b : Table) (n n2 : String) (vs : List ℚ)
    (h : n2 ≠ n) : (b.setCol n vs).getCol n2 = b.getCol n2 := by
  unfold Table.setCol Table.hasCol Table.getCol
  split
  · rw [find?_replace_ne n n2 vs h b.cols]
  · rw [find?_append_single_ne n n2 vs h b.cols]

theorem index_setCol (b : Table) (n : String) (vs : List ℚ) :
    (b.setCol n vs).index = b.index := by
  unfold Table.setCol
  split <;> rfl

theorem index_ensurePlain (b : Table) (n : String) :
    (ensurePlain b n).index = b.index := by
  unfold ensurePlain
  split
  · rfl
  · rw [index_setCol]

theorem unstack_getCol (ps : List ((Nat × String) × ℚ)) (t : String) :
    (unstackTable ps).getCol t =
      if t ∈ sortedTipos ps then
        some ((sortedMeses ps).map (fun m => (pairLookup ps (m, t)).getD 0))
      else none := by
  unfold unstackTable Table.getCol
  dsimp only
  rw [find?_map_key
    (fun t2 => (sortedMeses ps).map (fun m => (pairLookup ps (m, t2)).getD 0))
    t (sortedTipos ps)]
  by_cases h : t ∈ sortedTipos ps
  · rw [if_pos h, if_pos h]
    rfl
  · rw [if_neg h, if_neg h]
    rfl

theorem pairLookup_eq_none_of_tipo_not_mem (ps : List ((Nat × String) × ℚ))
    (t : String) (m : Nat) (h : t ∉ sortedTipos ps) :
    pairLookup ps (m, t) = none := by
  rcases hf : ps.find? (fun p => p.1 = (m, t)) with - | q
  · unfold pairLookup
    rw [hf]
    rfl
  · exfalso
    have hm := List.mem_of_find?_eq_some hf
    have hq : q.1 = (m, t) := by simpa using List.find?_some hf
    refine h ?_
    unfold sortedTipos
    rw [sortedTipos_mem_fold]
    exact Or.inr ⟨q, hm, by rw [hq]⟩

theorem zipWith_map_same (f g : Nat → ℚ) :
    ∀ l : List Nat,
      List.zipWith (fun a c => a - c) (l.map f) (l.map g) =
        l.map (fun x => f x - g x) := by
  intro l
  induction l with
  | nil => rfl
  | cons a rest ih => simp [ih]

theorem ensurePlain_getCol_self (b : Table) (t : String) :
    (ensurePlain b t).getCol t =
      some ((b.getCol t).getD (b.index.map (fun _ => (0 : ℚ)))) := by
  unfold ensurePlain
  split
  · rename_i h
    unfold Table.hasCol at h
    unfold Table.getCol
    rcases hf : b.cols.find? (fun p => p.1 = t) with - | q
    · rw [hf] at h
      cases h
    · rw [hf]
      rfl
  · rename_i h
    rw [getCol_setCol_self]
    have hnone : b.getCol t = none := by
      unfold Table.hasCol at h
      unfold Table.getCol
      rcases hf : b.cols.find? (fun p => p.1 = t) with - | q
      · rw [hf]
        rfl
      · rw [hf] at h
        simp at h
    rw [hnone]
    rfl

theorem ensurePlain_getCol_ne (b : Table) (t t2 : String) (h : t2 ≠ t) :
    (ensurePlain b t).getCol t2 = b.getCol t2 := by
  unfold ensurePlain
  split
  · rfl
  · rw [getCol_setCol_ne _ t t2 _ h]

theorem unstack_col_getD (ps : List ((Nat × String) × ℚ)) (t : String) :
    ((unstackTable ps).getCol t).getD
        ((unstackTable ps).index.map (fun _ => (0 : ℚ))) =
      (sortedMeses ps).map (fun m => (pairLookup ps (m, t)).getD 0) := by
  rw [unstack_getCol]
  by_cases hmem : t ∈ sortedTipos ps
  · rw [if_pos hmem]
    rfl
  · rw [if_neg hmem]
    have hidx : (unstackTable ps).index = sortedMeses ps := rfl
    rw [Option.getD_none, hidx]
    refine List.map_congr_left ?_
    intro m _
    rw [pairLookup_eq_none_of_tipo_not_mem ps t m hmem]
    rfl

/-- Counterexample to C7 as stated: the aggregated table is not indexed
densely by months 1 through 12 — with records in January only, the index is
`[1]`, and the line chart is drawn over that one month. -/
theorem dense_month_index_counterexample :
    (baseOf recsJanOnly 2025).index = [1] ∧
    (baseOf recsJanOnly 2025).index ≠ [1, 2, 3, 4, 5, 6, 7, 8, 9, 10, 11, 12] ∧
    plot_chart_by_type recsJanOnly 2025 "line" =
      Except.ok (Chart.line [1] [5] [0]) :=
  ⟨rfl, by decide, rfl⟩

/-- C7 amended: `plot_chart_by_type` sums `valor` grouped by `(mes, tipo)`
over the records of the requested year into a table indexed by the months
actually present (ascending, not a dense 1..12); the `receita` and `despesa`
columns exist in every case, a missing `(month, tipo)` combination
contributing `0`, and a `saldo` column equal to `receita - despesa` is
always computed; the `saldo` chart plots that table. -/
theorem aggregation_over_present_months :
    ∀ (rs : List Record) (year : Int),
      List.Sorted (· < ·) (baseOf rs year).index ∧
      (∀ m : Nat, m ∈ (baseOf rs year).index ↔
        ∃ r ∈ rs, r.ano = year ∧ r.mes = some m) ∧
      (baseOf rs year).getCol "receita" =
        some ((baseOf rs year).index.map (fun m => sumValor rs year m "receita")) ∧
      (baseOf rs year).getCol "despesa" =
        some ((baseOf rs year).index.map (fun m => sumValor rs year m "despesa")) ∧
      (baseOf rs year).getCol "saldo" =
        some ((baseOf rs year).index.map (fun m =>
          sumValor rs year m "receita" - sumValor rs year m "despesa")) ∧
      plot_chart_by_type rs year "saldo" =
        Except.ok (Chart.saldo (baseOf rs year).index
          (((baseOf rs year).getCol "saldo").getD [])) := by
  intro rs year
  have hidx : (baseOf rs year).index =
      sortedMeses (groupPairs (filterYear rs year)) := by
    unfold baseOf withSaldo
    rw [index_setCol, index_ensurePlain, index_ensurePlain]
    rfl
  have hsum : ∀ (m : Nat) (t : String),
      (pairLookup (groupPairs (filterYear rs year)) (m, t)).getD 0 =
        sumValor rs year m t := by
    intro m t
    unfold groupPairs sumValor
    have h := groupPairs_lookup_fold (m, t) (filterYear rs year) []
    simpa [pairLookup] using h
  have hr : (baseOf rs year).getCol "receita" =
      some ((sortedMeses (groupPairs (filterYear rs year))).map
        (fun m =>
          (pairLookup (groupPairs (filterYear rs year)) (m, "receita")).getD 0)) := by
    unfold baseOf withSaldo
    rw [getCol_setCol_ne _ "saldo" "receita" _ (by decide),
      ensurePlain_getCol_ne _ "despesa" "receita" (by decide),
      ensurePlain_getCol_self, unstack_col_getD]
  have hd : (baseOf rs year).getCol "despesa" =
      some ((sortedMeses (groupPairs (filterYear rs year))).map
        (fun m =>
          (pairLookup (groupPairs (filterYear rs year)) (m, "despesa")).getD 0)) := by
    unfold baseOf withSaldo
    rw [getCol_setCol_ne _ "saldo" "despesa" _ (by decide),
      ensurePlain_getCol_self,
      ensurePlain_getCol_ne _ "receita" "despesa" (by decide),
      index_ensurePlain, unstack_col_getD]
  have hb2r : (ensurePlain (ensurePlain
      (unstackTable (groupPairs (filterYear rs year))) "receita")
        "despesa").getCol "receita" =
      some ((sortedMeses (groupPairs (filterYear rs year))).map
        (fun m =>
          (pairLookup (groupPairs (filterYear rs year)) (m, "receita")).getD 0)) := by
    rw [ensurePlain_getCol_ne _ "despesa" "receita" (by decide),
      ensurePlain_getCol_self, unstack_col_getD]
  have hb2d : (ensurePlain (ensurePlain
      (unstackTable (groupPairs (filterYear rs year))) "receita")
        "despesa").getCol "despesa" =
      some ((sortedMeses (groupPairs (filterYear rs year))).map
        (fun m =>
          (pairLookup (groupPairs (filterYear rs year)) (m, "despesa")).getD 0)) := by
    rw [ensurePlain_getCol_self,
      ensurePlain_getCol_ne _ "receita" "despesa" (by decide),
      index_ensurePlain, unstack_col_getD]
  have hs : (baseOf rs year).getCol "saldo" =
      some ((sortedMeses (groupPairs (filterYear rs year))).map
        (fun m =>
          (pairLookup (groupPairs (filterYear rs year)) (m, "receita")).getD 0 -
          (pairLookup (groupPairs (filterYear rs year)) (m, "despesa")).getD 0)) := by
    unfold baseOf withSaldo
    rw [getCol_setCol_self, hb2r, hb2d]
    rw [Option.getD_some, Option.getD_some, zipWith_map_same]
  refine ⟨?_, ?_, ?_, ?_, ?_, ?_⟩
  · rw [hidx]
    unfold sortedMeses
    exact sortedMeses_sorted_fold _ [] List.sorted_nil
  · intro m
    rw [hidx]
    unfold sortedMeses
    rw [sortedMeses_mem_fold]
    unfold groupPairs
    rw [groupPairs_fst_mem]
    simp only [List.not_mem_nil, false_or, List.mem_nil_iff, exists_false,
      false_and, exists_const]
    constructor
    · rintro ⟨r, hrf, hmes⟩
      obtain ⟨hrm, hano⟩ := List.mem_filter.mp hrf
      exact ⟨r, hrm, of_decide_eq_true hano, hmes⟩
    · rintro ⟨r, hrm, hano, hmes⟩
      exact ⟨r, List.mem_filter.mpr ⟨hrm, decide_eq_true hano⟩, hmes⟩
  · rw [hr, hidx]
    simp only [hsum]
  · rw [hd, hidx]
    simp only [hsum]
  · rw [hs, hidx]
    simp only [hsum]
  · unfold plot_chart_by_type plotHeap
    simp only [List.getElem?_cons_zero]
    rw [if_neg (by decide), if_neg (by decide), if_pos trivial]
    rfl

end PylasControl
